import Mathlib

/-!
# Verification of the TurboVue resource binder (`createTurboResource`)

A shallow embedding of `src/resource.ts` (the most complete evolution of the
file).  The binder's reactive machinery — Vue's `computed`, `ref`, and
`watch`/`onCleanup` — is modelled as an explicit small-step machine driven by
an event list; each step returns the successor state together with the list of
externally visible actions it performs (cache subscriptions, queries,
re-thrown errors).  Pure helpers (the raw handler of `onFocus`, option merging,
`refetch` and friends, `createStale`) are embedded as plain functions.

Modelling decisions mirroring the host runtime:

* Vue's async `watch` callback runs synchronously up to its first `await`; the
  `onCleanup` registration that happens *after* the `await` is modelled as a
  pending continuation (`pending` list) that fires when the query resolves.
  The watcher's single cleanup slot (`cleanupSlot`) is overwritten on each
  registration and consumed (reset to `none`) when the watcher re-runs,
  exactly as in the Vue implementation.
* A Vue `ref` only notifies its watchers when the new value differs from the
  old one (`Object.is` check); the error-re-throw `watch (error)` therefore
  fires only on a changed payload.
* JavaScript truthiness on keys: the sources guard with `if (!key)` and
  `if (computedKey.value)`, so `false`, `null` and the empty string all count
  as "no active key".
-/

namespace TurboVue

/-- The five cache lifecycle events hard-wired in the watch callback. -/
inductive EvtKind
  | mutated
  | refetching
  | resolved
  | error
  | forgotten
deriving DecidableEq, Repr

/-- The two environment triggers (window focus regain, network reconnect). -/
inductive EnvKind
  | focus
  | connect
deriving DecidableEq, Repr

/-- Outcome of evaluating the user key function `() => string | false | null`:
a string, `false`, `null`, or a thrown exception. -/
inductive KeyOutcome
  | str (s : String)
  | fls
  | nul
  | thrown
deriving DecidableEq, Repr

/-- The value held by the `computedKey` computed: `string | false | null`. -/
inductive KeyVal
  | strv (s : String)
  | falsev
  | nullv
deriving DecidableEq, Repr

/-- `computedKey`: evaluates the key function, catching any thrown error and
substituting `null` (the absent sentinel), as in
`computed(() => { try { return key() } catch { return null } })`. -/
def computedKey : KeyOutcome → KeyVal
  | .str s => .strv s
  | .fls => .falsev
  | .nul => .nullv
  | .thrown => .nullv

/-- JavaScript truthiness of the computed key: the guards `if (!key)` and
`if (computedKey.value)` treat `false`, `null` and `""` as absent. -/
def KeyVal.truthy : KeyVal → Bool
  | .strv s => s ≠ ""
  | .falsev => false
  | .nullv => false

/-- The active key, if any: the string when the key value is truthy. -/
def KeyVal.activeKey : KeyVal → Option String
  | .strv s => if s = "" then none else some s
  | .falsev => none
  | .nullv => none

/-- Left-biased choice on options: `a ?? b` restricted to present fields,
i.e. the effect of a later object spread overriding an earlier one. -/
def oget {α : Type} : Option α → Option α → Option α
  | some x, _ => some x
  | none, b => b

/-- The engine-level fetch options the binder passes through: the `stale`
flag plus one representative passthrough field. -/
structure QOpts where
  stale : Option Bool := none
  other : Option Nat := none
deriving DecidableEq, Repr

/-- Effective options of an issued query after all spreads are applied. -/
structure EffOpts where
  stale : Bool
  other : Option Nat
deriving DecidableEq, Repr

/-- Effective options of `turboQuery(key, { stale: true, ...options })` —
the stale-accepting query issued by the initial resolution block and by the
key watcher. -/
def initOpts (opts : QOpts) : EffOpts :=
  { stale := opts.stale.getD true, other := opts.other }

/-- Effective options of
`turboQuery(key, { stale: false, ...options, ...ops })` issued by `refetch`:
later spreads override earlier ones field-wise. -/
def refetchOpts (opts ops : QOpts) : EffOpts :=
  { stale := (oget ops.stale opts.stale).getD false
    other := oget ops.other opts.other }

/-- The statically resolved configuration of one binder instantiation
(call-site option ?? injected context option ?? default, resolved once).
`hasWindow` models `typeof window` being defined. -/
structure Config where
  refetchOnFocus : Bool := true
  refetchOnConnect : Bool := true
  hasWindow : Bool := true
  focusInterval : Int := 5000
  clearOnForget : Bool := false
  opts : QOpts := {}
deriving DecidableEq, Repr

/-- Resolution of the `focusInterval` option:
`options?.focusInterval ?? contextOptions?.focusInterval ?? 5000`. -/
def resolveFocusInterval (opt ctx : Option Int) : Int :=
  (oget opt ctx).getD 5000

/-- Whether `onFocus` actually installs a listener: `refetchOnFocus` holds
and a window object exists. -/
def focusEnabled (cfg : Config) : Bool :=
  cfg.refetchOnFocus && cfg.hasWindow

/-- Whether `onConnect` actually installs a listener. -/
def connectEnabled (cfg : Config) : Bool :=
  cfg.refetchOnConnect && cfg.hasWindow

/-- The raw focus handler installed by `onFocus`: given the throttle
interval, the stored `lastFocus` time and the current time, returns the new
`lastFocus` value and whether the refetch listener fired. -/
def rawFocusHandler (interval lastFocus now : Int) : Int × Bool :=
  if now - lastFocus > interval then (now, true) else (lastFocus, false)

/-- A live cache-event subscription held by the binder: its unsubscribe
handle identity, the key it was registered for and the event kind. -/
structure Sub where
  id : Nat
  key : String
  kind : EvtKind
deriving DecidableEq, Repr

/-- A live environment-trigger listener (focus or connect). -/
structure EnvSub where
  id : Nat
  kind : EnvKind
deriving DecidableEq, Repr

/-- Externally visible actions performed by the binder. -/
inductive Action
  | subscribe (key : String) (kind : EvtKind)
  | unsubscribe (key : String) (kind : EvtKind)
  | subscribeEnv (kind : EnvKind)
  | unsubscribeEnv (kind : EnvKind)
  | query (key : String) (opts : EffOpts)
  | throwErr (payload : String)
deriving DecidableEq, Repr

/-- The binder state: the reactive cells (the current value of `computedKey`,
`resource`, `error`, `isRefetching`, `lastFocus`), the live subscription
handles, the watcher's single cleanup slot, and the suspended watcher runs
whose `await turboQuery` has not resolved yet (each recorded as the key it
subscribed for and the base id of its seven unsubscribe handles). -/
structure MachineState where
  keyVal : KeyVal
  resource : Option String
  errorSlot : Option String
  isRefetching : Bool
  lastFocus : Int
  subs : List Sub
  envSubs : List EnvSub
  cleanupSlot : Option (String × Nat)
  pending : List (String × Nat)
  nextId : Nat
  stopped : Bool
deriving DecidableEq, Repr

/-- The five cache-event subscriptions one watcher run registers, in source
order, with unsubscribe-handle ids `n .. n+4`. -/
def mkSubs (k : String) (n : Nat) : List Sub :=
  [⟨n, k, .mutated⟩, ⟨n + 1, k, .refetching⟩, ⟨n + 2, k, .resolved⟩,
   ⟨n + 3, k, .error⟩, ⟨n + 4, k, .forgotten⟩]

/-- The environment listeners one watcher run registers (ids `n+5`, `n+6`),
present only when the corresponding trigger is enabled and a window exists. -/
def mkEnvSubs (cfg : Config) (n : Nat) : List EnvSub :=
  (if focusEnabled cfg then [⟨n + 5, .focus⟩] else []) ++
    (if connectEnabled cfg then [⟨n + 6, .connect⟩] else [])

/-- The subscription actions one watcher run emits for key `k`, in source
order. -/
def subActions (cfg : Config) (k : String) : List Action :=
  [.subscribe k .mutated, .subscribe k .refetching, .subscribe k .resolved,
   .subscribe k .error, .subscribe k .forgotten] ++
    (if focusEnabled cfg then [.subscribeEnv .focus] else []) ++
    (if connectEnabled cfg then [.subscribeEnv .connect] else [])

/-- The actions a teardown closure for key `k` emits, in the order the seven
unsubscribers are called inside `onCleanup`. -/
def unsubActions (cfg : Config) (k : String) : List Action :=
  [.unsubscribe k .mutated, .unsubscribe k .refetching, .unsubscribe k .resolved,
   .unsubscribe k .error, .unsubscribe k .forgotten] ++
    (if focusEnabled cfg then [.unsubscribeEnv .focus] else []) ++
    (if connectEnabled cfg then [.unsubscribeEnv .connect] else [])

/-- Remove the subscriptions created by the run with base id `n` (its seven
handles have ids `n .. n+6`). -/
def removeSubsRange (n : Nat) (l : List Sub) : List Sub :=
  l.filter fun s => !(n ≤ s.id && s.id < n + 7)

/-- Remove the environment listeners created by the run with base id `n`. -/
def removeEnvRange (n : Nat) (l : List EnvSub) : List EnvSub :=
  l.filter fun s => !(n ≤ s.id && s.id < n + 7)

/-- Execute the teardown closure currently held in the watcher's cleanup
slot, if any — invoked by Vue before re-running the callback and on stop. -/
def runCleanup (cfg : Config) (s : MachineState) : MachineState × List Action :=
  match s.cleanupSlot with
  | none => (s, [])
  | some (k, n) =>
      ({ s with subs := removeSubsRange n s.subs
                envSubs := removeEnvRange n s.envSubs
                cleanupSlot := none },
       unsubActions cfg k)

/-- The external query trace of a `refetch()` call made by an environment
listener (no call-site ops): nothing when no key is active, otherwise the
fresh-by-default query on the *current* key. -/
def refetchTrace (cfg : Config) (s : MachineState) : List Action :=
  match s.keyVal.activeKey with
  | none => []
  | some k => [.query k (refetchOpts cfg.opts {})]

/-- The synchronous prefix of one watcher-callback run with key value `kv`:
reset `isRefetching`, bail out on a falsy key, otherwise register the five
cache-event subscriptions and the enabled environment listeners, issue the
stale-accepting query and suspend (the continuation that assigns `resource`
and registers `onCleanup` is parked on the `pending` list). -/
def runCallback (cfg : Config) (s : MachineState) (kv : KeyVal) :
    MachineState × List Action :=
  let s := { s with isRefetching := false }
  match kv.activeKey with
  | none => (s, [])
  | some k =>
      let n := s.nextId
      ({ s with subs := s.subs ++ mkSubs k n
                envSubs := s.envSubs ++ mkEnvSubs cfg n
                pending := s.pending ++ [(k, n)]
                nextId := n + 7 },
       subActions cfg k ++ [.query k (initOpts cfg.opts)])

/-- The handler of one matching cache-event subscription, exactly as written
in the watch callback.  The `error` handler writes the `error` ref, which
notifies its re-throwing watcher only when the payload differs from the
stored value. -/
def applyEvtOnce (cfg : Config) (kind : EvtKind) (payload : String)
    (s : MachineState) : MachineState × List Action :=
  match kind with
  | .mutated => ({ s with resource := some payload }, [])
  | .refetching => ({ s with isRefetching := true }, [])
  | .resolved => ({ s with isRefetching := false, resource := some payload }, [])
  | .error =>
      if s.errorSlot = some payload then
        ({ s with isRefetching := false }, [])
      else
        ({ s with isRefetching := false, errorSlot := some payload },
         [.throwErr payload])
  | .forgotten =>
      (if cfg.clearOnForget then { s with resource := none } else s, [])

/-- Run the handler once per matching live subscription. -/
def applyN (cfg : Config) (kind : EvtKind) (payload : String) :
    Nat → MachineState → MachineState × List Action
  | 0, s => (s, [])
  | n + 1, s =>
      let r1 := applyEvtOnce cfg kind payload s
      let r2 := applyN cfg kind payload n r1.1
      (r2.1, r1.2 ++ r2.2)

/-- Run the raw focus handler once per live focus listener (each invocation
sees the `lastFocus` written by the previous one). -/
def applyFocus (cfg : Config) (now : Int) :
    Nat → MachineState → MachineState × List Action
  | 0, s => (s, [])
  | n + 1, s =>
      let r := rawFocusHandler cfg.focusInterval s.lastFocus now
      let r1 := if r.2 then ({ s with lastFocus := r.1 }, refetchTrace cfg s)
                else (s, ([] : List Action))
      let r2 := applyFocus cfg now n r1.1
      (r2.1, r1.2 ++ r2.2)

/-- External events driving the binder machine. -/
inductive MEvent
  | keyChange (k : KeyOutcome)
  | resolveOldest (v : String)
  | cacheEvt (k : String) (kind : EvtKind) (payload : String)
  | focusAt (now : Int)
  | connectEvt
  | stop
deriving Repr

/-- One step of the binder machine. -/
def stepM (cfg : Config) (s : MachineState) : MEvent → MachineState × List Action
  | .keyChange k =>
      if s.stopped then (s, [])
      else
        let kv := computedKey k
        if kv = s.keyVal then (s, [])
        else
          let r0 := runCleanup cfg s
          let r1 := runCallback cfg { r0.1 with keyVal := kv } kv
          (r1.1, r0.2 ++ r1.2)
  | .resolveOldest v =>
      match s.pending with
      | [] => (s, [])
      | (k, n) :: rest =>
          ({ s with resource := some v, cleanupSlot := some (k, n),
                    pending := rest }, [])
  | .cacheEvt k kind payload =>
      let c := (s.subs.filter fun sub => sub.key = k && sub.kind = kind).length
      applyN cfg kind payload c s
  | .focusAt now =>
      let c := (s.envSubs.filter fun sub => sub.kind = EnvKind.focus).length
      applyFocus cfg now c s
  | .connectEvt =>
      let c := (s.envSubs.filter fun sub => sub.kind = EnvKind.connect).length
      (s, (List.replicate c (refetchTrace cfg s)).flatten)
  | .stop =>
      let r0 := runCleanup cfg s
      ({ r0.1 with stopped := true }, r0.2)

/-- `createTurboResource`: resolve the initial key; when truthy, issue and
await the stale-accepting query (its value `v0` lands in `resource`); then
install the key watcher with `immediate: true`, whose first run re-subscribes
and re-queries the same key. -/
def initMachine (cfg : Config) (k0 : KeyOutcome) (v0 : String) (now0 : Int) :
    MachineState × List Action :=
  let kv := computedKey k0
  let s : MachineState :=
    { keyVal := kv, resource := none, errorSlot := none, isRefetching := false
      lastFocus := now0, subs := [], envSubs := [], cleanupSlot := none
      pending := [], nextId := 0, stopped := false }
  let r1 : MachineState × List Action :=
    match kv.activeKey with
    | some k => ({ s with resource := some v0 }, [.query k (initOpts cfg.opts)])
    | none => (s, [])
  let r2 := runCallback cfg r1.1 kv
  (r2.1, r1.2 ++ r2.2)

/-- Run a list of events, accumulating the trace. -/
def runEvents (cfg : Config) : MachineState → List MEvent → MachineState × List Action
  | s, [] => (s, [])
  | s, e :: es =>
      let r1 := stepM cfg s e
      let r2 := runEvents cfg r1.1 es
      (r2.1, r1.2 ++ r2.2)

/-- A call issued to the external cache engine by the explicit actions. -/
inductive CacheCall
  | query (key : String) (opts : EffOpts)
  | mutate (key : String) (item : String)
  | forget (key : String)
  | abort (key : String) (reason : Option String)
deriving DecidableEq, Repr

/-- `refetch(ops)`: the cache call it issues —
`if (!computedKey.value) return` else
`turboQuery(computedKey.value, { stale: false, ...options, ...ops })`. -/
def refetchCall (opts : QOpts) (kv : KeyVal) (ops : QOpts) : Option CacheCall :=
  match kv.activeKey with
  | none => none
  | some k => some (.query k (refetchOpts opts ops))

/-- `refetch(ops)`: the promise's value, where `v` is what the issued query
resolves to — `undefined` when no key is active. -/
def refetchResult (kv : KeyVal) (v : String) : Option String :=
  match kv.activeKey with
  | none => none
  | some _ => some v

/-- `localMutate(item)`: no-op without an active key, else delegates. -/
def mutateCall (kv : KeyVal) (item : String) : Option CacheCall :=
  match kv.activeKey with
  | none => none
  | some k => some (.mutate k item)

/-- `localForget()`: no-op without an active key, else delegates. -/
def forgetCall (kv : KeyVal) : Option CacheCall :=
  match kv.activeKey with
  | none => none
  | some k => some (.forget k)

/-- `localAbort(reason)`: no-op without an active key, else delegates. -/
def abortCall (kv : KeyVal) (reason : Option String) : Option CacheCall :=
  match kv.activeKey with
  | none => none
  | some k => some (.abort k reason)

/-! ## The `createStale` staleness tracker

`createStale(precision)` computes an initial `isStale`/`staleIn` pair
synchronously, then installs `watch(computedKey, cb)` — *without*
`immediate: true` — whose callback starts a `setInterval` poll for the newly
current key and registers an `onCleanup` that clears it; `onUnmounted`
disposal stops the watcher (which also clears the live interval).  Both the
initial computation and the poll read the module-level `expiration`. -/

/-- State of one `createStale` tracker: the two refs, the live poll interval
(carrying the key value the watcher run captured), the key value last seen by
its watcher, and whether the tracker was disposed. -/
structure StaleState where
  isStale : Bool
  staleIn : Int
  pollKey : Option KeyVal
  watchKey : KeyVal
  disposed : Bool
deriving DecidableEq, Repr

/-- The synchronous initial computation of `createStale`: defaults
`(true, 0)`, overridden when the current key is truthy and has an
expiration. No poll is started (the watch lacks `immediate: true`). -/
def staleInit (exp : String → Option Int) (now : Int) (kv : KeyVal) : StaleState :=
  let p : Bool × Int :=
    match kv.activeKey with
    | none => (true, 0)
    | some k =>
        match exp k with
        | none => (true, 0)
        | some e => (decide (e < now), if 0 ≤ e - now then e - now else 0)
  { isStale := p.1, staleIn := p.2, pollKey := none, watchKey := kv
    disposed := false }

/-- Events driving a `createStale` tracker. -/
inductive SEvent
  | keyChange (k : KeyOutcome)
  | tick (now : Int)
  | dispose
deriving Repr

/-- One step of the `createStale` tracker: a key change (when the watcher is
live and the value actually changed) clears the previous poll and starts one
for the new key value; a poll tick recomputes the pair from the captured
key's expiration (doing nothing when the key is falsy or has no expiration);
disposal stops the watcher and clears the live poll. -/
def staleStep (exp : String → Option Int) (s : StaleState) : SEvent → StaleState
  | .keyChange k =>
      if s.disposed then s
      else
        let kv := computedKey k
        if kv = s.watchKey then s
        else { s with pollKey := some kv, watchKey := kv }
  | .tick now =>
      match s.pollKey with
      | none => s
      | some kv =>
          match kv.activeKey with
          | none => s
          | some k =>
              match exp k with
              | none => s
              | some e =>
                  let d := e - now
                  { s with
                    staleIn :=
                      if 0 ≤ d then d
                      else if s.staleIn > 0 then 0 else s.staleIn
                    isStale := decide (e < now) }
  | .dispose => { s with pollKey := none, disposed := true }

/-! ## Quiescence and helper lemmas

A binder state is *quiescent* when no watcher run is suspended mid-`await`:
the pending list is empty and the live subscriptions are exactly those of the
current key (whose teardown sits in the cleanup slot), or none at all when
the key is absent.  Creation followed by resolution of the initial query
yields a quiescent state, and the claims about clean teardown hold for
transitions taken from quiescent states. -/

/-- No suspended watcher run: the live subscription handles belong to the
current key alone and match the registered cleanup. -/
def Quiescent (cfg : Config) (s : MachineState) : Prop :=
  s.pending = [] ∧ s.stopped = false ∧
    ((s.cleanupSlot = none ∧ s.keyVal.activeKey = none ∧ s.subs = [] ∧
        s.envSubs = []) ∨
      (∃ k n, s.cleanupSlot = some (k, n) ∧ s.keyVal.activeKey = some k ∧
        s.subs = mkSubs k n ∧ s.envSubs = mkEnvSubs cfg n))

/-- The unsubscribe actions emitted when the key value `kv` is torn down from
a quiescent state: the seven disposers when a key was active, none otherwise. -/
def unsubTraceOf (cfg : Config) (kv : KeyVal) : List Action :=
  match kv.activeKey with
  | none => []
  | some k => unsubActions cfg k

/-- The subscribe-then-query actions emitted by a watcher run for the key
value `kv`: the seven registrations and the stale-accepting query when the
key is truthy, none otherwise. -/
def subTraceOf (cfg : Config) (kv : KeyVal) : List Action :=
  match kv.activeKey with
  | none => []
  | some k => subActions cfg k ++ [.query k (initOpts cfg.opts)]

theorem removeSubsRange_mkSubs (k : String) (n : Nat) :
    removeSubsRange n (mkSubs k n) = [] := by
  rw [removeSubsRange, List.filter_eq_nil_iff]
  intro a ha
  simp only [mkSubs, List.mem_cons, List.not_mem_nil, or_false] at ha
  rcases ha with rfl | rfl | rfl | rfl | rfl <;> simp

theorem removeEnvRange_mkEnvSubs (cfg : Config) (n : Nat) :
    removeEnvRange n (mkEnvSubs cfg n) = [] := by
  rw [removeEnvRange, List.filter_eq_nil_iff]
  intro a ha
  simp only [mkEnvSubs, List.mem_append] at ha
  rcases ha with ha | ha <;> rcases (by split at ha <;> simp_all :
      a.id = n + 5 ∨ a.id = n + 6) with h | h <;> simp [h]

theorem mem_mkSubs_key {sub : Sub} {k : String} {n : Nat}
    (h : sub ∈ mkSubs k n) : sub.key = k := by
  simp only [mkSubs, List.mem_cons, List.not_mem_nil, or_false] at h
  rcases h with rfl | rfl | rfl | rfl | rfl <;> rfl

/-- Whether an action is part of a subscription teardown. -/
def Action.isTeardown : Action → Bool
  | .unsubscribe _ _ => true
  | .unsubscribeEnv _ => true
  | _ => false

/-- A quiescent state reached by creating the binder on key `"A"` (initial
query value `"x"`, creation time 0) and letting the immediate watcher run
resolve its query with `"v"`. -/
def quiescentOnA : MachineState :=
  (stepM {} (initMachine {} (.str "A") "x" 0).1 (.resolveOldest "v")).1

/-! ## C1: teardown before setup across key transitions -/

/-- C1 counterexample: when the key changes from `"A"` to `"B"` while the
watcher run for `"A"` is still awaiting its query, no `onCleanup` for `"A"`
has been registered yet, so the step emits no unsubscribe at all and the
five cache-event subscriptions for `"A"` stay live next to the five freshly
registered ones for `"B"` — two live subscription sets at once, refuting the
claim precisely in its mid-await case. -/
theorem c1_counterexample :
    ((stepM {} (initMachine {} (.str "A") "x" 0).1
        (.keyChange (.str "B"))).1.subs.filter
          fun sub => sub.key == "A").length = 5 ∧
    ((stepM {} (initMachine {} (.str "A") "x" 0).1
        (.keyChange (.str "B"))).1.subs.filter
          fun sub => sub.key == "B").length = 5 ∧
    ((stepM {} (initMachine {} (.str "A") "x" 0).1
        (.keyChange (.str "B"))).2.all fun a => !a.isTeardown) = true := by
  decide

/-- C1 (amended): for a key transition taken from a quiescent state — the
previous watcher run has resolved its query and registered its cleanup, i.e.
the transition does not happen while the query for the outgoing key is still
awaiting — the step first emits the five cache-event unsubscribes and the
two environment-trigger removals for the outgoing key and only then the
subscriptions for the incoming key; afterwards every live subscription
belongs to the new key (at most one live subscription set), and quiescence
is re-established (immediately when the new key is absent, after the new
query resolves when it is present). -/
theorem c1_teardown_before_setup (cfg : Config) (s : MachineState)
    (k' : KeyOutcome) (hq : Quiescent cfg s)
    (hne : computedKey k' ≠ s.keyVal) :
    (stepM cfg s (.keyChange k')).2 =
      unsubTraceOf cfg s.keyVal ++ subTraceOf cfg (computedKey k') ∧
    (∀ sub ∈ (stepM cfg s (.keyChange k')).1.subs,
        some sub.key = (computedKey k').activeKey) ∧
    ((computedKey k').activeKey = none →
      Quiescent cfg (stepM cfg s (.keyChange k')).1) ∧
    (∀ v, (computedKey k').activeKey ≠ none →
      Quiescent cfg
        (stepM cfg (stepM cfg s (.keyChange k')).1 (.resolveOldest v)).1) := by
  obtain ⟨hp, hst, hcase⟩ := hq
  rcases hcase with ⟨hc, hak, hsubs, henv⟩ | ⟨k, n, hc, hak, hsubs, henv⟩
  · cases hak2 : (computedKey k').activeKey with
    | none =>
        simp only [stepM, hst, Bool.false_eq_true, if_false, if_neg hne,
          runCleanup, hc, runCallback, hak2, unsubTraceOf, hak, subTraceOf,
          hsubs, henv, hp]
        refine ⟨by trivial, by simp, fun _ => ⟨rfl, rfl, Or.inl ⟨rfl, hak2, rfl, rfl⟩⟩,
          fun v h => absurd rfl h⟩
    | some k2 =>
        simp only [stepM, hst, Bool.false_eq_true, if_false, if_neg hne,
          runCleanup, hc, runCallback, hak2, unsubTraceOf, hak, subTraceOf,
          hsubs, henv, hp]
        refine ⟨by trivial, ?_, fun h => by simp at h, fun v _ => ?_⟩
        · intro sub hsub
          simp only [List.nil_append, List.mem_append] at hsub
          rw [mem_mkSubs_key (by simpa using hsub)]
        · exact ⟨rfl, rfl, Or.inr ⟨k2, s.nextId, rfl, hak2, by simp, by simp⟩⟩
  · cases hak2 : (computedKey k').activeKey with
    | none =>
        simp only [stepM, hst, Bool.false_eq_true, if_false, if_neg hne,
          runCleanup, hc, runCallback, hak2, unsubTraceOf, hak, subTraceOf,
          hsubs, henv, hp, removeSubsRange_mkSubs, removeEnvRange_mkEnvSubs]
        refine ⟨by trivial, by simp, fun _ => ⟨rfl, rfl, Or.inl ⟨rfl, hak2, rfl, rfl⟩⟩,
          fun v h => absurd rfl h⟩
    | some k2 =>
        simp only [stepM, hst, Bool.false_eq_true, if_false, if_neg hne,
          runCleanup, hc, runCallback, hak2, unsubTraceOf, hak, subTraceOf,
          hsubs, henv, hp, removeSubsRange_mkSubs, removeEnvRange_mkEnvSubs]
        refine ⟨by trivial, ?_, fun h => by simp at h, fun v _ => ?_⟩
        · intro sub hsub
          simp only [List.nil_append, List.mem_append] at hsub
          rw [mem_mkSubs_key (by simpa using hsub)]
        · exact ⟨rfl, rfl, Or.inr ⟨k2, s.nextId, rfl, hak2, by simp, by simp⟩⟩

/-- Witness for C1 (amended): the quiescent state on key `"A"` transitions
to `"B"` by emitting exactly the seven teardowns of `"A"` followed by the
registrations and query for `"B"`. -/
theorem c1_teardown_before_setup_witness :
    (stepM {} quiescentOnA (.keyChange (.str "B"))).2 =
      unsubTraceOf {} quiescentOnA.keyVal ++
        subTraceOf {} (computedKey (.str "B")) :=
  (c1_teardown_before_setup {} quiescentOnA (.str "B")
    ⟨by decide, by decide,
      Or.inr ⟨"A", 0, by decide, by decide, by decide, by decide⟩⟩
    (by decide)).1

/-! ## Handler-iteration lemmas -/

theorem applyN_mutated_isRef (cfg : Config) (p : String) (n : Nat) :
    ∀ s, (applyN cfg .mutated p n s).1.isRefetching = s.isRefetching := by
  induction n with
  | zero => intro s; rfl
  | succ m ih => intro s; simpa [applyN, applyEvtOnce] using ih _

theorem applyN_forgotten_isRef (cfg : Config) (p : String) (n : Nat) :
    ∀ s, (applyN cfg .forgotten p n s).1.isRefetching = s.isRefetching := by
  induction n with
  | zero => intro s; rfl
  | succ m ih =>
      intro s
      by_cases h : cfg.clearOnForget <;>
        simpa [applyN, applyEvtOnce, h] using ih _

theorem applyN_refetching_pos_isRef (cfg : Config) (p : String) (n : Nat) :
    ∀ s, (applyN cfg .refetching p (n + 1) s).1.isRefetching = true := by
  induction n with
  | zero => intro s; rfl
  | succ m ih => intro s; simpa [applyN, applyEvtOnce] using ih _

theorem applyN_resolved_pos_isRef (cfg : Config) (p : String) (n : Nat) :
    ∀ s, (applyN cfg .resolved p (n + 1) s).1.isRefetching = false := by
  induction n with
  | zero => intro s; rfl
  | succ m ih => intro s; simpa [applyN, applyEvtOnce] using ih _

theorem applyN_error_pos_isRef (cfg : Config) (p : String) (n : Nat) :
    ∀ s, (applyN cfg .error p (n + 1) s).1.isRefetching = false := by
  induction n with
  | zero =>
      intro s
      by_cases h : s.errorSlot = some p <;> simp [applyN, applyEvtOnce, h]
  | succ m ih =>
      intro s
      show (applyN cfg .error p (m + 1)
        (applyEvtOnce cfg .error p s).1).1.isRefetching = false
      exact ih _

theorem filter_mkSubs_ne {k0 k : String} (hne : k0 ≠ k) (n : Nat)
    (kind : EvtKind) :
    ((mkSubs k0 n).filter fun sub => sub.key = k && sub.kind = kind) = [] := by
  simp [mkSubs, hne]

/-! ## C2: the `isRefetching` flag -/

/-- C2 counterexample: create the binder on `"A"` and, while the watcher run
for `"A"` is still awaiting its query, change the key to absent.  The
subscriptions of `"A"` were never torn down (no cleanup was registered yet),
so a later `refetching` cache event for `"A"` flips `isRefetching` to `true`
even though the key is absent — refuting "never true while the key is
absent" and "set true only by the refetching event for the current key". -/
theorem c2_counterexample :
    (runEvents {} (initMachine {} (.str "A") "x" 0).1
        [.keyChange .nul, .cacheEvt "A" .refetching "p"]).1.isRefetching
        = true ∧
    (runEvents {} (initMachine {} (.str "A") "x" 0).1
        [.keyChange .nul, .cacheEvt "A" .refetching "p"]).1.keyVal.activeKey
        = none := by
  decide

/-- C2 (amended): `isRefetching` is set to `false` as the first action of
every processed key change; it becomes `true` only through a `refetching`
cache event delivered to a live `refetching` subscription — which, when the
state is quiescent (no transition happened mid-await), exists only for the
current key — and `resolved` and `error` events delivered to a live
subscription reset it to `false`. -/
theorem c2_isRefetching (cfg : Config) :
    (∀ s k', s.stopped = false → computedKey k' ≠ s.keyVal →
      (stepM cfg s (.keyChange k')).1.isRefetching = false) ∧
    (∀ s k kind p, s.isRefetching = false →
      (stepM cfg s (.cacheEvt k kind p)).1.isRefetching = true →
      kind = .refetching ∧
        ∃ sub ∈ s.subs, sub.key = k ∧ sub.kind = .refetching) ∧
    (∀ s k p, Quiescent cfg s → s.keyVal.activeKey ≠ some k →
      (stepM cfg s (.cacheEvt k .refetching p)).1.isRefetching
        = s.isRefetching) ∧
    (∀ s k p, (∃ sub ∈ s.subs, sub.key = k ∧ sub.kind = .resolved) →
      (stepM cfg s (.cacheEvt k .resolved p)).1.isRefetching = false) ∧
    (∀ s k p, (∃ sub ∈ s.subs, sub.key = k ∧ sub.kind = .error) →
      (stepM cfg s (.cacheEvt k .error p)).1.isRefetching = false) := by
  refine ⟨?_, ?_, ?_, ?_, ?_⟩
  · intro s k' hst hne
    simp only [stepM, hst, Bool.false_eq_true, if_false, if_neg hne]
    rcases hak : (computedKey k').activeKey with _ | k2 <;>
      simp [runCallback, hak]
  · intro s k kind p h0 h1
    simp only [stepM] at h1
    rcases hfe : (s.subs.filter fun sub => sub.key = k && sub.kind = kind)
      with _ | ⟨sub0, rest⟩
    · rw [hfe] at h1
      simp only [List.length_nil, applyN] at h1
      rw [h0] at h1
      exact absurd h1 (by simp)
    · have hmem : sub0 ∈ s.subs.filter
          fun sub => sub.key = k && sub.kind = kind := by
        rw [hfe]; exact List.mem_cons_self _ _
      have := List.mem_filter.mp hmem
      rcases this with ⟨hmem', hprop⟩
      simp only [Bool.and_eq_true, decide_eq_true_eq] at hprop
      cases kind with
      | mutated => rw [hfe, applyN_mutated_isRef, h0] at h1; exact absurd h1 (by simp)
      | forgotten =>
          rw [hfe, applyN_forgotten_isRef, h0] at h1; exact absurd h1 (by simp)
      | resolved =>
          rw [hfe] at h1
          simp only [List.length_cons] at h1
          rw [applyN_resolved_pos_isRef] at h1
          exact absurd h1 (by simp)
      | error =>
          rw [hfe] at h1
          simp only [List.length_cons] at h1
          rw [applyN_error_pos_isRef] at h1
          exact absurd h1 (by simp)
      | refetching =>
          exact ⟨rfl, sub0, hmem', hprop.1, hprop.2⟩
  · intro s k p hq hne
    obtain ⟨hp, hst, hcase⟩ := hq
    rcases hcase with ⟨hc, hak, hsubs, henv⟩ | ⟨k0, n, hc, hak, hsubs, henv⟩
    · simp [stepM, hsubs, applyN]
    · have hkne : k0 ≠ k := fun h => hne (h ▸ hak)
      simp [stepM, hsubs, filter_mkSubs_ne hkne, applyN]
  · intro s k p hex
    rcases hex with ⟨sub0, hmem, hkey, hkind⟩
    have hmemf : sub0 ∈ s.subs.filter
        fun sub => sub.key = k && sub.kind = EvtKind.resolved :=
      List.mem_filter.mpr ⟨hmem, by simp [hkey, hkind]⟩
    rcases hfe : (s.subs.filter
        fun sub => sub.key = k && sub.kind = EvtKind.resolved)
      with _ | ⟨sub1, rest⟩
    · rw [hfe] at hmemf; exact absurd hmemf (by simp)
    · simp only [stepM, hfe, List.length_cons]
      exact applyN_resolved_pos_isRef cfg p rest.length s
  · intro s k p hex
    rcases hex with ⟨sub0, hmem, hkey, hkind⟩
    have hmemf : sub0 ∈ s.subs.filter
        fun sub => sub.key = k && sub.kind = EvtKind.error :=
      List.mem_filter.mpr ⟨hmem, by simp [hkey, hkind]⟩
    rcases hfe : (s.subs.filter
        fun sub => sub.key = k && sub.kind = EvtKind.error)
      with _ | ⟨sub1, rest⟩
    · rw [hfe] at hmemf; exact absurd hmemf (by simp)
    · simp only [stepM, hfe, List.length_cons]
      exact applyN_error_pos_isRef cfg p rest.length s

/-- Witness for C2 (amended): on the quiescent state for key `"A"`, a key
change to absent resets `isRefetching`, a `refetching` event for the foreign
key `"Z"` leaves it untouched, and a `resolved` event for `"A"` resets it. -/
theorem c2_isRefetching_witness :
    (stepM {} quiescentOnA (.keyChange .nul)).1.isRefetching = false ∧
    (stepM {} quiescentOnA (.cacheEvt "Z" .refetching "p")).1.isRefetching
      = quiescentOnA.isRefetching ∧
    (stepM {} quiescentOnA (.cacheEvt "A" .resolved "v2")).1.isRefetching
      = false :=
  ⟨(c2_isRefetching {}).1 quiescentOnA .nul (by decide) (by decide),
   (c2_isRefetching {}).2.2.1 quiescentOnA "Z" "p"
     ⟨by decide, by decide,
       Or.inr ⟨"A", 0, by decide, by decide, by decide, by decide⟩⟩
     (by decide),
   (c2_isRefetching {}).2.2.2.1 quiescentOnA "A" "v2" (by decide)⟩

/-! ## C3: throwing key functions -/

/-- C3: when the key-producing function throws, `computedKey` catches the
exception (its try/catch makes the computation total, so nothing propagates
to the caller of `createTurboResource`) and yields the absent sentinel
`null`; creating the binder on such a key issues no cache query and
registers no subscription. -/
theorem c3_thrown_key (cfg : Config) (v : String) (now : Int) :
    computedKey .thrown = KeyVal.nullv ∧
    (initMachine cfg .thrown v now).2 = [] ∧
    (initMachine cfg .thrown v now).1.subs = [] ∧
    (initMachine cfg .thrown v now).1.envSubs = [] ∧
    (initMachine cfg .thrown v now).1.pending = [] :=
  ⟨rfl, rfl, rfl, rfl, rfl⟩

/-! ## C4: the `forgotten` event and `clearOnForget` -/

theorem applyN_forgotten_resource_false (cfg : Config) (p : String)
    (hcf : cfg.clearOnForget = false) (n : Nat) :
    ∀ s, (applyN cfg .forgotten p n s).1.resource = s.resource := by
  induction n with
  | zero => intro s; rfl
  | succ m ih => intro s; simpa [applyN, applyEvtOnce, hcf] using ih _

theorem applyN_forgotten_resource_pos (cfg : Config) (p : String)
    (hcf : cfg.clearOnForget = true) (n : Nat) :
    ∀ s, (applyN cfg .forgotten p (n + 1) s).1.resource = none := by
  induction n with
  | zero => intro s; simp [applyN, applyEvtOnce, hcf]
  | succ m ih =>
      intro s
      show (applyN cfg .forgotten p (m + 1)
        (applyEvtOnce cfg .forgotten p s).1).1.resource = none
      exact ih _

/-- C4: with `clearOnForget = false` (the default) a `forgotten` cache event
never alters the resource cell; with `clearOnForget = true` every
`forgotten` event delivered to a live `forgotten` subscription clears the
resource to absent. -/
theorem c4_forgotten (cfg : Config) (s : MachineState) (k p : String) :
    (cfg.clearOnForget = false →
      (stepM cfg s (.cacheEvt k .forgotten p)).1.resource = s.resource) ∧
    (cfg.clearOnForget = true →
      (∃ sub ∈ s.subs, sub.key = k ∧ sub.kind = .forgotten) →
      (stepM cfg s (.cacheEvt k .forgotten p)).1.resource = none) := by
  constructor
  · intro hcf
    simp only [stepM]
    exact applyN_forgotten_resource_false cfg p hcf _ s
  · intro hcf hex
    rcases hex with ⟨sub0, hmem, hkey, hkind⟩
    have hmemf : sub0 ∈ s.subs.filter
        fun sub => sub.key = k && sub.kind = EvtKind.forgotten :=
      List.mem_filter.mpr ⟨hmem, by simp [hkey, hkind]⟩
    rcases hfe : (s.subs.filter
        fun sub => sub.key = k && sub.kind = EvtKind.forgotten)
      with _ | ⟨sub1, rest⟩
    · rw [hfe] at hmemf; exact absurd hmemf (by simp)
    · simp only [stepM, hfe, List.length_cons]
      exact applyN_forgotten_resource_pos cfg p hcf rest.length s

/-- Witness for C4: on the quiescent state for key `"A"` (which holds a live
`forgotten` subscription), the default configuration leaves the resource
untouched while `clearOnForget = true` clears it. -/
theorem c4_forgotten_witness :
    (stepM {} quiescentOnA (.cacheEvt "A" .forgotten "p")).1.resource
      = quiescentOnA.resource ∧
    (stepM { clearOnForget := true } quiescentOnA
        (.cacheEvt "A" .forgotten "p")).1.resource = none :=
  ⟨(c4_forgotten {} quiescentOnA "A" "p").1 rfl,
   (c4_forgotten { clearOnForget := true } quiescentOnA "A" "p").2 rfl
     (by decide)⟩

/-! ## C5: focus throttling -/

/-- C5: the raw focus handler fires its refetch listener exactly when the
elapsed time since `lastFocus` strictly exceeds the throttle interval,
updates `lastFocus` (to the firing time) only when it fires, and therefore
two focus events within one interval of each other trigger at most one
refetch; the interval defaults to 5000 ms. -/
theorem c5_focus_throttle :
    (∀ i l now, ((rawFocusHandler i l now).2 = true ↔ now - l > i)) ∧
    (∀ i l now, (rawFocusHandler i l now).2 = false →
      (rawFocusHandler i l now).1 = l) ∧
    (∀ i l now, (rawFocusHandler i l now).2 = true →
      (rawFocusHandler i l now).1 = now) ∧
    (∀ i l t1 t2, t2 - t1 ≤ i →
      ¬((rawFocusHandler i l t1).2 = true ∧
        (rawFocusHandler i (rawFocusHandler i l t1).1 t2).2 = true)) ∧
    resolveFocusInterval none none = 5000 := by
  refine ⟨?_, ?_, ?_, ?_, rfl⟩
  · intro i l now
    simp only [rawFocusHandler]
    split <;> simp_all
  · intro i l now h
    simp only [rawFocusHandler] at h ⊢
    split <;> simp_all
  · intro i l now h
    simp only [rawFocusHandler] at h ⊢
    split <;> simp_all
  · intro i l t1 t2 hle h
    rcases h with ⟨h1, h2⟩
    simp only [rawFocusHandler] at h1 h2
    by_cases hc : t1 - l > i
    · rw [if_pos hc] at h1 h2
      simp only at h2
      split at h2
      · omega
      · exact absurd h2 (by simp)
    · rw [if_neg hc] at h1
      exact absurd h1 (by simp)

/-- Witness for C5: with the default 5000 ms interval and `lastFocus = 0`, a
focus at 4000 does not update `lastFocus`, a focus at 6000 fires and moves
it to 6000, and a second focus at 9000 (within one interval of the firing
one) cannot fire again. -/
theorem c5_focus_throttle_witness :
    (rawFocusHandler 5000 0 4000).1 = 0 ∧
    (rawFocusHandler 5000 0 6000).1 = 6000 ∧
    ¬((rawFocusHandler 5000 0 6000).2 = true ∧
      (rawFocusHandler 5000 (rawFocusHandler 5000 0 6000).1 9000).2
        = true) :=
  ⟨c5_focus_throttle.2.1 5000 0 4000 (by decide),
   c5_focus_throttle.2.2.1 5000 0 6000 (by decide),
   c5_focus_throttle.2.2.2.1 5000 0 6000 9000 (by decide)⟩

/-! ## C6: error events and re-throwing -/

/-- C6 counterexample: two consecutive `error` events with the identical
payload `"boom"` on the live subscription for `"A"` re-throw only once in
total — the `error` ref does not notify its watcher when the value is
unchanged — refuting "re-thrown exactly once per occurrence, including a
repeated identical payload". -/
theorem c6_counterexample :
    ((runEvents {} quiescentOnA
        [.cacheEvt "A" .error "boom", .cacheEvt "A" .error "boom"]).2.filter
          fun a => a == .throwErr "boom").length = 1 ∧
    (runEvents {} quiescentOnA
        [.cacheEvt "A" .error "boom", .cacheEvt "A" .error "boom"]).1.errorSlot
      = some "boom" := by
  decide

/-- C6 (amended): an `error` event delivered to the (single) live `error`
subscription sets the error slot to the payload, and re-throws it through
the observed side channel exactly once whenever the payload differs from the
currently stored error; a payload identical to the stored error is retained
but not re-thrown again. -/
theorem c6_error_rethrow (cfg : Config) (s : MachineState) (k e : String)
    (hone : (s.subs.filter
        fun sub => sub.key = k && sub.kind = EvtKind.error).length = 1) :
    (s.errorSlot ≠ some e →
      (stepM cfg s (.cacheEvt k .error e)).1.errorSlot = some e ∧
      (stepM cfg s (.cacheEvt k .error e)).2 = [.throwErr e]) ∧
    (s.errorSlot = some e →
      (stepM cfg s (.cacheEvt k .error e)).1.errorSlot = some e ∧
      (stepM cfg s (.cacheEvt k .error e)).2 = []) := by
  constructor <;> intro h <;>
    simp [stepM, hone, applyN, applyEvtOnce, h]

/-- Witness for C6 (amended): delivering `"boom"` on the quiescent state for
`"A"` (whose error slot is empty) stores and re-throws it once. -/
theorem c6_error_rethrow_witness :
    (stepM {} quiescentOnA (.cacheEvt "A" .error "boom")).1.errorSlot
      = some "boom" ∧
    (stepM {} quiescentOnA (.cacheEvt "A" .error "boom")).2
      = [.throwErr "boom"] :=
  (c6_error_rethrow {} quiescentOnA "A" "boom" (by decide)).1 (by decide)

/-! ## C7: delegation of explicit actions -/

/-- C7: with no active key, `refetch` resolves to absent without issuing a
cache call and `mutate` / `forget` / `abort` are no-ops issuing no cache
call; with an active key, each delegates directly to the resolved cache
primitive for the current key (and `refetch` returns the resolved value). -/
theorem c7_delegation (opts : QOpts) :
    (∀ kv ops v item r, kv.truthy = false →
      refetchCall opts kv ops = none ∧ refetchResult kv v = none ∧
      mutateCall kv item = none ∧ forgetCall kv = none ∧
      abortCall kv r = none) ∧
    (∀ kv k ops v item r, kv.activeKey = some k →
      refetchCall opts kv ops = some (.query k (refetchOpts opts ops)) ∧
      refetchResult kv v = some v ∧
      mutateCall kv item = some (.mutate k item) ∧
      forgetCall kv = some (.forget k) ∧
      abortCall kv r = some (.abort k r)) := by
  constructor
  · intro kv ops v item r h
    have hak : kv.activeKey = none := by
      cases kv with
      | strv s =>
          simp only [KeyVal.truthy, decide_eq_false_iff_not, ne_eq,
            not_not] at h
          simp [KeyVal.activeKey, h]
      | falsev => rfl
      | nullv => rfl
    simp [refetchCall, refetchResult, mutateCall, forgetCall, abortCall, hak]
  · intro kv k ops v item r h
    simp [refetchCall, refetchResult, mutateCall, forgetCall, abortCall, h]

/-- Witness for C7: the `null` key issues nothing, the key `"K"` delegates. -/
theorem c7_delegation_witness :
    refetchCall {} .nullv {} = none ∧
    mutateCall .nullv "i" = none ∧
    forgetCall (.strv "K") = some (.forget "K") ∧
    abortCall (.strv "K") none = some (.abort "K" none) :=
  ⟨((c7_delegation {}).1 .nullv {} "v" "i" none (by decide)).1,
   ((c7_delegation {}).1 .nullv {} "v" "i" none (by decide)).2.2.1,
   ((c7_delegation {}).2 (.strv "K") "K" {} "v" "i" none
     (by decide)).2.2.2.1,
   ((c7_delegation {}).2 (.strv "K") "K" {} "v" "i" none
     (by decide)).2.2.2.2⟩

/-! ## C9: the effective options of `refetch` -/

/-- C9 counterexample: a binder constructed with `{ stale: true }` issues a
stale-accepting — not fresh — query on `refetch()` with no call-site ops,
because the spread `{ stale: false, ...options, ...ops }` lets construction
options override the `stale: false` base, refuting "fresh regardless of the
binder construction options". -/
theorem c9_counterexample :
    refetchCall { stale := some true } (.strv "K") {} =
      some (.query "K" { stale := true, other := none }) ∧
    (refetchOpts { stale := some true } {}).stale = true := by
  decide

/-- C9 (amended): with an active key, `refetch(ops)` issues the query whose
options are built from the base `stale: false` overridden first by the
binder construction options and then by the call-site ops (so the query is
fresh whenever neither sets `stale`, call-site ops take highest precedence,
and passthrough fields merge ops-over-options), and the resolved value is
returned. -/
theorem c9_refetch_opts (opts ops : QOpts) (k : String) (hk : k ≠ "") :
    refetchCall opts (.strv k) ops = some (.query k (refetchOpts opts ops)) ∧
    (ops.stale = none → opts.stale = none →
      (refetchOpts opts ops).stale = false) ∧
    (∀ b, ops.stale = some b → (refetchOpts opts ops).stale = b) ∧
    (∀ b, ops.stale = none → opts.stale = some b →
      (refetchOpts opts ops).stale = b) ∧
    (refetchOpts opts ops).other = oget ops.other opts.other ∧
    (∀ v, refetchResult (.strv k) v = some v) := by
  refine ⟨?_, ?_, ?_, ?_, rfl, ?_⟩
  · simp [refetchCall, KeyVal.activeKey, hk]
  · intro h1 h2; simp [refetchOpts, oget, h1, h2]
  · intro b h1; simp [refetchOpts, oget, h1]
  · intro b h1 h2; simp [refetchOpts, oget, h1, h2]
  · intro v; simp [refetchResult, KeyVal.activeKey, hk]

/-- Witness for C9 (amended): call-site `{ stale: false }` wins over
construction `{ stale: true }`, and with neither set the query is fresh. -/
theorem c9_refetch_opts_witness :
    (refetchOpts { stale := some true } { stale := some false }).stale
      = false ∧
    (refetchOpts {} {}).stale = false ∧
    refetchCall {} (.strv "K") {} =
      some (.query "K" (refetchOpts {} {})) :=
  ⟨(c9_refetch_opts { stale := some true } { stale := some false } "K"
      (by decide)).2.2.1 false rfl,
   (c9_refetch_opts {} {} "K" (by decide)).2.1 rfl rfl,
   (c9_refetch_opts {} {} "K" (by decide)).1⟩

/-! ## C10: the double initial query -/

/-- C10: when the key function yields a truthy key at creation time, the
binder issues the stale-accepting query for that key twice — once in the
initial-resolution block, whose awaited value lands in the resource cell
before the watcher is installed, and once from the immediately-invoked key
watcher — and the later resolution of the second query overwrites the
resource cell. -/
theorem c10_double_query (cfg : Config) (k v0 v1 : String) (now : Int)
    (hk : k ≠ "") :
    (initMachine cfg (.str k) v0 now).2 =
      [.query k (initOpts cfg.opts)] ++ subActions cfg k ++
        [.query k (initOpts cfg.opts)] ∧
    (initMachine cfg (.str k) v0 now).1.resource = some v0 ∧
    (stepM cfg (initMachine cfg (.str k) v0 now).1
        (.resolveOldest v1)).1.resource = some v1 := by
  have hak : (computedKey (.str k)).activeKey = some k := by
    simp [computedKey, KeyVal.activeKey, hk]
  refine ⟨?_, ?_, ?_⟩ <;>
    simp [initMachine, runCallback, hak, stepM]

/-- Witness for C10: creating the binder on `"K"` with initial value `"a"`
and resolving the watcher query with `"b"` leaves `"b"` in the resource. -/
theorem c10_double_query_witness :
    (stepM {} (initMachine {} (.str "K") "a" 0).1
        (.resolveOldest "b")).1.resource = some "b" ∧
    (initMachine {} (.str "K") "a" 0).1.resource = some "a" :=
  ⟨(c10_double_query {} "K" "a" "b" 0 (by decide)).2.2,
   (c10_double_query {} "K" "a" "b" 0 (by decide)).2.1⟩

/-! ## C8: the `createStale` tracker -/

/-- Expiration map used to exercise `createStale`: key `"A"` expires at
time 1000, key `"B"` at time 500. -/
def expAB : String → Option Int :=
  fun k => if k = "A" then some 1000 else if k = "B" then some 500 else none

/-- C8 evaluated at the failing input: `createStale` on current key `"A"`
(expiring 1000 ms in the future) computes the correct initial pair, but —
its key watch lacking `immediate: true` — starts no poll for the
creation-time key, so a tick at time 2000, well past expiration, changes
nothing and `isStale` stays `false`; after a key *change* (to `"B"`) the
poll does start and a tick past expiration correctly yields
`isStale = true`, `staleIn = 0`. -/
theorem c8_stale_poll_missing :
    (staleInit expAB 0 (computedKey (.str "A"))).isStale = false ∧
    (staleInit expAB 0 (computedKey (.str "A"))).staleIn = 1000 ∧
    (staleInit expAB 0 (computedKey (.str "A"))).pollKey = none ∧
    staleStep expAB (staleInit expAB 0 (computedKey (.str "A")))
        (.tick 2000) = staleInit expAB 0 (computedKey (.str "A")) ∧
    (staleStep expAB (staleStep expAB
        (staleInit expAB 0 (computedKey (.str "A")))
        (.keyChange (.str "B"))) (.tick 2000)).isStale = true ∧
    (staleStep expAB (staleStep expAB
        (staleInit expAB 0 (computedKey (.str "A")))
        (.keyChange (.str "B"))) (.tick 2000)).staleIn = 0 := by
  decide

end TurboVue
